import Mathlib

/-!
Verification development for the transformer model of
src/examples/transformer.py (repository ChunliF/matchbox).

Modelling conventions
- Tensors are total functions from natural-number indices to rationals:
  a rank-3 tensor (batch, position, feature) is `ℕ → ℕ → ℕ → ℚ`.
  Out-of-range indices carry junk values; every statement quantifies only
  over in-range indices or is index-wise.
- Floating point is modelled by ℚ.  The transcendental framework functions
  (math.sqrt, exp inside softmax, sin, cos, rational powers of 10000) are
  abstract parameters of type `ℚ → ℚ`; theorems that need a property of
  them (e.g. sin 0 = 0, or that sqrt squares back to its argument) take it
  as an explicit hypothesis.
- torch.nn.Dropout multiplies its input elementwise by a random mask
  (scaled Bernoulli) during training and is the identity at inference.
  It is modelled by an explicit elementwise multiplier tensor, so that a
  fixed draw of the random mask is a fixed tensor (the identity mask
  `fun _ _ => 1` is inference mode).
-/

/-- Rank-1 tensor (a row along the feature axis). -/
abbrev Vec : Type := ℕ → ℚ

/-- Rank-2 tensor (row index, feature index). -/
abbrev Tensor2 : Type := ℕ → ℕ → ℚ

/-- Rank-3 tensor (batch, position, feature). -/
abbrev Tensor3 : Type := ℕ → ℕ → ℕ → ℚ

/-- Mean of the first n entries of a row: x.mean(-1) over a last axis of
width n. -/
def meanQ (n : ℕ) (v : Vec) : ℚ :=
  (∑ d ∈ Finset.range n, v d) / n

/-- Unbiased sample variance of the first n entries of a row: torch's
x.std(-1) is sqrt of this (Bessel correction, division by n-1). -/
def varQ (n : ℕ) (v : Vec) : ℚ :=
  (∑ d ∈ Finset.range n, (v d - meanQ n v) ^ 2) / ((n : ℚ) - 1)

/-- LayerNorm parameters: learned gain and shift plus the eps constant
(transformer.py lines 25-29; gamma initialised to ones and beta to zeros,
but both learned, so kept arbitrary here). -/
structure LayerNorm where
  gamma : Vec
  beta : Vec
  eps : ℚ

/-- LayerNorm.forward (lines 31-34): mean and std are taken over the last
axis (width n); sqrtQ models float sqrt, so std = sqrtQ (varQ n row).
The Python expression gamma * (x - mean) / (std + eps) + beta groups as
((gamma * (x - mean)) / (std + eps)) + beta, reproduced verbatim. -/
def LayerNorm.forward (sqrtQ : ℚ → ℚ) (ln : LayerNorm) (n : ℕ) (x : Tensor2) : Tensor2 :=
  fun r d =>
    ln.gamma d * (x r d - meanQ n (x r)) / (sqrtQ (varQ n (x r)) + ln.eps) + ln.beta d

/-- The normalized part of LayerNorm.forward before the learned scale and
shift are applied: (x - mean) / (std + eps) on one row. -/
def lnNormalized (sqrtQ : ℚ → ℚ) (eps : ℚ) (n : ℕ) (v : Vec) : Vec :=
  fun d => (v d - meanQ n v) / (sqrtQ (varQ n v) + eps)

/-- ResidualBlock state (lines 47-53): the wrapped layer (taking the whole
argument tuple), the dropout mask and the LayerNorm parameters. -/
structure ResidualBlock where
  layer : List Tensor2 → Tensor2
  dmask : Tensor2
  norm : LayerNorm

/-- ResidualBlock.forward (lines 55-56): x[0] + dropout(norm(layer(*x))),
with the argument tuple *x passed whole to the wrapped layer. -/
def ResidualBlock.forward (sqrtQ : ℚ → ℚ) (n : ℕ) (rb : ResidualBlock)
    (x0 : Tensor2) (rest : List Tensor2) : Tensor2 :=
  fun r d =>
    x0 r d + rb.dmask r d * LayerNorm.forward sqrtQ rb.norm n (rb.layer (x0 :: rest)) r d

/-- Channel scales of positional_encodings_like (lines 12-13): entry i of
torch.arange(0, D, 2) / D is 2i/D, and the channel scale is
1 / 10000^(2i/D); pw models the float map q ↦ 10000^q. -/
def peChannels (pw : ℚ → ℚ) (D : ℕ) (i : ℕ) : ℚ :=
  1 / pw (((2 * i : ℕ) : ℚ) / (D : ℚ))

/-- The outer product positions.unsqueeze(-1) @ channels.unsqueeze(0)
(line 14): entry (p, i) is p * (1 / 10000^(2i/D)). -/
def peRaw (pw : ℚ → ℚ) (D : ℕ) (p i : ℕ) : ℚ :=
  (p : ℚ) * peChannels pw D i

/-- torch.stack((encodings.sin(), encodings.cos()), -1) (line 15): a new
trailing axis of width 2 holding (sin, cos). -/
def peStack (sinQ cosQ pw : ℚ → ℚ) (D : ℕ) (p i c : ℕ) : ℚ :=
  if c = 0 then sinQ (peRaw pw D p i) else cosQ (peRaw pw D p i)

/-- The contiguous().view(..., -1) (line 16) merging the last two axes
(width ceil(D/2) and width 2, row-major): flat channel d comes from pair
(d / 2, d % 2). -/
def peFlat (sinQ cosQ pw : ℚ → ℚ) (D : ℕ) (p d : ℕ) : ℚ :=
  peStack sinQ cosQ pw D p (d / 2) (d % 2)

/-- positional_encodings_like (lines 9-21) for a rank-3 input of trailing
shape (T, D): the rank-2 encodings are unsqueezed and expanded over the
leading batch axis (lines 18-19), so the batch index is ignored. -/
def positional_encodings_like (sinQ cosQ pw : ℚ → ℚ) (D : ℕ) : Tensor3 :=
  fun _ p d => peFlat sinQ cosQ pw D p d

/-- Attention state (lines 58-64): the scale is fixed at construction time
as math.sqrt(d_key) of the constructor argument and never changes; the
dropout mask is applied to the attention weights; causal toggles masking. -/
structure Attention where
  scale : ℚ
  dmask : Tensor3
  causal : Bool

/-- Attention.__init__ (lines 60-64): scale = math.sqrt(d_key), with sqrtQ
modelling float sqrt. -/
def Attention.init (sqrtQ : ℚ → ℚ) (d_key : ℕ) (dmask : Tensor3) (causal : Bool) : Attention :=
  { scale := sqrtQ (d_key : ℚ), dmask := dmask, causal := causal }

/-- Modelled from the spec: causal_mask(in_dim=2, out_dim=1) (line 70)
keeps a dot-product entry iff the key position does not exceed the query
position; masked entries are set to minus infinity before softmax.  The
rank-3 guard query.dim() == 3 (line 69) always holds here because Tensor3
is rank 3 by construction. -/
def attnKeep (causal : Bool) (i j : ℕ) : Bool :=
  !causal || decide (j ≤ i)

/-- query @ key.transpose(1, 2) (line 67): batched dot products over the
feature axis of width Dk. -/
def attnDot (Dk : ℕ) (q k : Tensor3) (b i j : ℕ) : ℚ :=
  ∑ c ∈ Finset.range Dk, q b i c * k b j c

/-- Modelled from the spec: the softmax normalizer over the key axis.  An
entry masked to minus infinity contributes exp(-inf) = 0, so the sum runs
over the kept positions only; expQ models float exp on finite inputs. -/
def attnZ (expQ : ℚ → ℚ) (a : Attention) (Tk Dk : ℕ) (q k : Tensor3) (b i : ℕ) : ℚ :=
  ∑ j ∈ (Finset.range Tk).filter (fun j => attnKeep a.causal i j = true),
    expQ (attnDot Dk q k b i j / a.scale)

/-- Modelled from the spec: softmax weight of key position j for query
position i, zero on masked entries ((dot_products / scale).softmax(),
lines 70-72). -/
def attnWeight (expQ : ℚ → ℚ) (a : Attention) (Tk Dk : ℕ) (q k : Tensor3) (b i j : ℕ) : ℚ :=
  if attnKeep a.causal i j
  then expQ (attnDot Dk q k b i j / a.scale) / attnZ expQ a Tk Dk q k b i
  else 0

/-- Attention.forward (lines 66-72): dropout applied to the attention
weights, then the weighted sum of value rows over the key axis. -/
def Attention.forward (expQ : ℚ → ℚ) (a : Attention) (Tk Dk : ℕ) (q k v : Tensor3) : Tensor3 :=
  fun b i d =>
    ∑ j ∈ Finset.range Tk, a.dmask b i j * attnWeight expQ a Tk Dk q k b i j * v b j d

/-- Weight and bias of one nn.Linear, as supplied values (torch draws them
randomly at construction; they are parameters here). -/
structure LinearParams where
  w : ℕ → ℕ → ℚ
  bias : Vec

/-- nn.Linear(inF, outF) applied along the last axis. -/
structure Linear where
  inF : ℕ
  outF : ℕ
  w : ℕ → ℕ → ℚ
  bias : Vec

/-- nn.Linear construction: records the two widths and the parameters. -/
def Linear.init (inF outF : ℕ) (p : LinearParams) : Linear :=
  { inF := inF, outF := outF, w := p.w, bias := p.bias }

/-- nn.Linear forward on a rank-3 tensor: affine map along the last axis. -/
def Linear.forward (l : Linear) (x : Tensor3) : Tensor3 :=
  fun b t o => (∑ c ∈ Finset.range l.inF, l.w o c * x b t c) + l.bias o

/-- MultiHead state (lines 74-83): the shared per-head attention instance,
the four projections wq : d_key → d_key, wk : d_key → d_key,
wv : d_value → d_value, wo : d_value → d_key, and the head count. -/
structure MultiHead where
  attention : Attention
  wq : Linear
  wk : Linear
  wv : Linear
  wo : Linear
  n_heads : ℕ

/-- MultiHead.__init__ body (lines 76-83), excluding any error channel. -/
def MultiHead.mkModule (attention : Attention) (d_key d_value n_heads : ℕ)
    (pq pk pv po : LinearParams) : MultiHead :=
  { attention := attention,
    wq := Linear.init d_key d_key pq,
    wk := Linear.init d_key d_key pk,
    wv := Linear.init d_value d_value pv,
    wo := Linear.init d_value d_key po,
    n_heads := n_heads }

/-- MultiHead.__init__ (lines 76-83) with an explicit error channel so that
construction-time failure is statable: the source performs no validation of
any kind (in particular no divisibility check relating n_heads to d_key or
d_value), so construction always succeeds. -/
def MultiHead.initE (attention : Attention) (d_key d_value n_heads : ℕ)
    (pq pk pv po : LinearParams) : Except String MultiHead :=
  .ok (MultiHead.mkModule attention d_key d_value n_heads pq pk pv po)

/-- Modelled from the spec: x.split_dim(-1, n).combine_dims(0, -1)
(line 88), B x T x D to (B*N) x T x (D/N) per the in-code shape comment,
with row-major index arithmetic: new batch index b*n + h is head h of
batch b, and its channel c is original channel c*n + h. -/
def headSplit (n : ℕ) (x : Tensor3) : Tensor3 :=
  fun b' t c => x (b' / n) t (c * n + b' % n)

/-- Modelled from the spec: outputs.split_dim(0, n).combine_dims(-1, 1)
(line 92), (B*N) x T x (D/N) back to B x T x D; the inverse of headSplit. -/
def headMerge (n : ℕ) (x : Tensor3) : Tensor3 :=
  fun b t f => x (b * n + f % n) t (f / n)

/-- MultiHead.forward (lines 85-93): project, fold heads into the batch
axis, run the single attention instance, unfold, output projection.  The
per-head feature width is wq.outF / n_heads. -/
def MultiHead.forward (expQ : ℚ → ℚ) (mh : MultiHead) (Tk : ℕ) (q k v : Tensor3) : Tensor3 :=
  let q1 := mh.wq.forward q
  let k1 := mh.wk.forward k
  let v1 := mh.wv.forward v
  let o := Attention.forward expQ mh.attention Tk (mh.wq.outF / mh.n_heads)
    (headSplit mh.n_heads q1) (headSplit mh.n_heads k1) (headSplit mh.n_heads v1)
  mh.wo.forward (headMerge mh.n_heads o)

/-- A tensor shape, as a list of axis widths. -/
abbrev Shape : Type := List ℕ

/-- Shape rule of nn.Linear along the last axis: the last width must equal
inF and becomes outF. -/
def linearShape (inF outF : ℕ) (s : Shape) : Option Shape :=
  match s.getLast? with
  | some d => if d = inF then some (s.dropLast ++ [outF]) else none
  | none => none

/-- Modelled from the spec: shape rule of split_dim(-1, n) (line 88), which
splits the last axis D into (D/n, n) and errors when n does not divide D
(the call-time shape error the spec attributes to the framework). -/
def splitLastShape (n : ℕ) (s : Shape) : Option Shape :=
  match s.getLast? with
  | some d => if n ∣ d then some (s.dropLast ++ [d / n, n]) else none
  | none => none

/-- Modelled from the spec: shape rule of combine_dims(0, -1) (line 88),
which folds the last axis into axis 0. -/
def combineZeroLastShape (s : Shape) : Option Shape :=
  match s with
  | b :: rest =>
    match rest.getLast? with
    | some k => some ((b * k) :: rest.dropLast)
    | none => none
  | [] => none

/-- Shape rule of Attention.forward on rank-3 operands (lines 66-72): the
batch widths must agree, query and key must share the feature width, key
and value must share the position width. -/
def attnShape (q k v : Shape) : Option Shape :=
  match q, k, v with
  | [b, tq, dk], [b', tk, dk'], [b'', tk', dv] =>
    if b' = b ∧ b'' = b ∧ dk' = dk ∧ tk' = tk then some [b, tq, dv] else none
  | _, _, _ => none

/-- Modelled from the spec: shape rule of split_dim(0, n) (line 92), which
splits axis 0 into (B/n, n). -/
def splitZeroShape (n : ℕ) (s : Shape) : Option Shape :=
  match s with
  | b :: rest => if n ∣ b then some ((b / n) :: n :: rest) else none
  | [] => none

/-- Modelled from the spec: shape rule of combine_dims(-1, 1) (line 92),
which folds the last axis into axis 1. -/
def combineLastOneShape (s : Shape) : Option Shape :=
  match s with
  | b :: h :: rest =>
    match rest.getLast? with
    | some d => some (b :: (rest.dropLast ++ [h * d]))
    | none => none
  | _ => none

/-- Shape semantics of MultiHead.forward (lines 85-93) on rank-3 operands,
composing the shape rules of its steps in source order; none is a shape
error raised by the framework at call time. -/
def multiHeadShape (d_key d_value n_heads : ℕ) (qs ks vs : Shape) : Option Shape :=
  (linearShape d_key d_key qs).bind fun q0 =>
  (linearShape d_key d_key ks).bind fun k0 =>
  (linearShape d_value d_value vs).bind fun v0 =>
  ((splitLastShape n_heads q0).bind combineZeroLastShape).bind fun q1 =>
  ((splitLastShape n_heads k0).bind combineZeroLastShape).bind fun k1 =>
  ((splitLastShape n_heads v0).bind combineZeroLastShape).bind fun v1 =>
  (attnShape q1 k1 v1).bind fun o0 =>
  (splitZeroShape n_heads o0).bind fun o1 =>
  (combineLastOneShape o1).bind fun o2 =>
  linearShape d_value d_key o2

/-- Hyperparameters consumed by the layer constructors (args in the
source). -/
structure Args where
  d_model : ℕ
  d_hidden : ℕ
  n_heads : ℕ
  n_layers : ℕ

/-- Residual block whose wrapped layer is a MultiHead (selfattn and
cross-attention blocks of EncoderLayer / DecoderLayer). -/
structure ResidualBlockMH where
  layer : MultiHead
  dmask : Tensor3
  norm : LayerNorm

/-- FeedForward state (lines 36-45): linear1 : d_model → d_hidden,
linear2 : d_hidden → d_model, with dropout between relu and linear2. -/
structure FeedForward where
  linear1 : Linear
  linear2 : Linear
  dmask : Tensor3

/-- Residual block whose wrapped layer is a FeedForward. -/
structure ResidualBlockFF where
  layer : FeedForward
  dmask : Tensor3
  norm : LayerNorm

/-- Random/learned state drawn when one MultiHead residual block is
constructed: the four projections, the attention-weight dropout mask, the
residual dropout mask and the LayerNorm parameters. -/
structure MHParams where
  pq : LinearParams
  pk : LinearParams
  pv : LinearParams
  po : LinearParams
  attnDrop : Tensor3
  resDrop : Tensor3
  norm : LayerNorm

/-- Random/learned state of one FeedForward residual block. -/
structure FFParams where
  p1 : LinearParams
  p2 : LinearParams
  innerDrop : Tensor3
  resDrop : Tensor3
  norm : LayerNorm

/-- ResidualBlock(MultiHead(Attention(args.d_model, drop, causal),
args.d_model, args.d_model, args.n_heads), args.d_model, drop), the
pattern of lines 99-102, 115-118 and 120-123: the attention is constructed
from the full width args.d_model, before any head split. -/
def mkAttnBlock (sqrtQ : ℚ → ℚ) (args : Args) (causal : Bool) (p : MHParams) : ResidualBlockMH :=
  { layer := MultiHead.mkModule (Attention.init sqrtQ args.d_model p.attnDrop causal)
      args.d_model args.d_model args.n_heads p.pq p.pk p.pv p.po,
    dmask := p.resDrop,
    norm := p.norm }

/-- ResidualBlock(FeedForward(args.d_model, args.d_hidden, drop), ...),
lines 103-105 and 125-127. -/
def mkFFBlock (args : Args) (p : FFParams) : ResidualBlockFF :=
  { layer := { linear1 := Linear.init args.d_model args.d_hidden p.p1,
               linear2 := Linear.init args.d_hidden args.d_model p.p2,
               dmask := p.innerDrop },
    dmask := p.resDrop,
    norm := p.norm }

/-- EncoderLayer state (lines 95-105). -/
structure EncoderLayer where
  selfattn : ResidualBlockMH
  feedforward : ResidualBlockFF

/-- EncoderLayer.__init__ (lines 97-105): non-causal self-attention block
plus feed-forward block. -/
def EncoderLayer.init (sqrtQ : ℚ → ℚ) (args : Args) (pa : MHParams) (pf : FFParams) : EncoderLayer :=
  { selfattn := mkAttnBlock sqrtQ args false pa,
    feedforward := mkFFBlock args pf }

/-- DecoderLayer state (lines 111-127). -/
structure DecoderLayer where
  selfattn : ResidualBlockMH
  attention : ResidualBlockMH
  feedforward : ResidualBlockFF

/-- DecoderLayer.__init__ (lines 113-127): causal self-attention block,
non-causal cross-attention block, feed-forward block. -/
def DecoderLayer.init (sqrtQ : ℚ → ℚ) (args : Args)
    (ps pc : MHParams) (pf : FFParams) : DecoderLayer :=
  { selfattn := mkAttnBlock sqrtQ args true ps,
    attention := mkAttnBlock sqrtQ args false pc,
    feedforward := mkFFBlock args pf }

/-- The loop of Encoder.forward (lines 149-152): thread x through the
layers, appending every intermediate output to the encoding list. -/
def encLoop (layers : List (Tensor3 → Tensor3)) (x : Tensor3) : List Tensor3 :=
  match layers with
  | [] => []
  | l :: ls => l x :: encLoop ls (l x)

/-- Encoder.forward (lines 145-153): pre models the framework-side
preprocessing F.embedding(x, out.weight * sqrt(d_model)) plus positional
encodings plus dropout (lines 146-148); then the layer loop returns the
whole list of per-layer outputs. -/
def Encoder.forward (pre : Tensor3 → Tensor3) (layers : List (Tensor3 → Tensor3))
    (x : Tensor3) : List Tensor3 :=
  encLoop layers (pre x)

/-- The loop of Decoder.forward (lines 172-173): zip(self.layers, encoding)
pairs layer i with encoding element i and stops at the shorter of the two
lists, exactly as Python's zip does; the final state is returned. -/
def decLoop (layers : List (Tensor3 → Tensor3 → Tensor3)) (encs : List Tensor3)
    (x : Tensor3) : Tensor3 :=
  match layers, encs with
  | l :: ls, e :: es => decLoop ls es (l x e)
  | _, _ => x

/-- Decoder.forward (lines 167-174), with an explicit error channel so that
claims about call-time errors are statable: pre models embedding plus
positional encodings plus dropout (lines 168-170); the zip-based loop can
raise nothing, so the result is always ok. -/
def Decoder.forward (pre : Tensor3 → Tensor3) (layers : List (Tensor3 → Tensor3 → Tensor3))
    (encs : List Tensor3) (x : Tensor3) : Except String Tensor3 :=
  .ok (decLoop layers encs (pre x))

/-- First i encoder layers applied in sequence (the reference form the
encoding list is compared against). -/
def stackApply (layers : List (Tensor3 → Tensor3)) (x : Tensor3) (i : ℕ) : Tensor3 :=
  (layers.take i).foldl (fun a l => l a) x

/-- One framework call observable in Transformer.forward, in execution
order: the encoder pass, the teacher-forced decoder pass, greedy decoding,
beam-search decoding. -/
inductive Step where
  | encoder : Step
  | decoder : Step
  | greedy : Step
  | beamSearch : Step
deriving DecidableEq

/-- The possible return values of Transformer.forward (lines 185-204):
the decoder hidden state alone (line 204), hidden state with softmax
probabilities (line 203), the decoded token sequence alone (line 200),
decoded sequence with hidden state and probabilities (line 199); crash
marks a read of the local variable out on a path where line 190 did not
assign it (Python would raise UnboundLocalError there). -/
inductive TOut (α : Type) where
  | plain : α → TOut α
  | withProbs : α → α → TOut α
  | decoded : α → TOut α
  | decodedProbs : α → α → α → TOut α
  | crash : TOut α
deriving DecidableEq

/-- The collaborators Transformer.forward dispatches to, over an abstract
value type α: the encoder (returning the per-layer encoding list), the
teacher-forced decoder, the two search routines, the output projection
self.decoder.out and softmax. -/
structure TfEnv (α : Type) where
  encF : α → List α
  decF : α → List α → α
  greedyF : List α → α
  beamF : List α → ℕ → ℚ → α
  outProj : α → α
  softmaxF : α → α

/-- Transformer.forward (lines 185-204), with the trace of collaborator
calls in execution order.  encoding is computed unconditionally (line 187);
out is assigned iff (return_probs and decoding) or (not decoding)
(lines 189-190); under decoding, beam == 1 selects greedy and anything
else beam_search with the length penalty alpha (lines 192-196). -/
def Transformer.forward {α : Type} (env : TfEnv α) (encoder_inputs decoder_inputs : α)
    (decoding : Bool) (beam : ℕ) (alpha : ℚ) (return_probs : Bool) :
    TOut α × List Step :=
  let encoding := env.encF encoder_inputs
  let runDec : Bool := (return_probs && decoding) || !decoding
  let out? : Option α := if runDec then some (env.decF decoder_inputs encoding) else none
  let trace : List Step :=
    Step.encoder :: ((if runDec then [Step.decoder] else []) ++
      (if decoding then [if beam = 1 then Step.greedy else Step.beamSearch] else []))
  if decoding then
    let output := if beam = 1 then env.greedyF encoding else env.beamF encoding beam alpha
    if return_probs then
      match out? with
      | some o => (TOut.decodedProbs output o (env.softmaxF (env.outProj o)), trace)
      | none => (TOut.crash, trace)
    else (TOut.decoded output, trace)
  else
    match out? with
    | some o =>
      if return_probs then (TOut.withProbs o (env.softmaxF (env.outProj o)), trace)
      else (TOut.plain o, trace)
    | none => (TOut.crash, trace)

/-- The centered entries of a row sum to zero. -/
theorem sum_sub_meanQ (n : ℕ) (v : Vec) :
    ∑ d ∈ Finset.range n, (v d - meanQ n v) = 0 := by
  rcases Nat.eq_zero_or_pos n with h | h
  · subst h; simp
  · have hn : (n : ℚ) ≠ 0 := Nat.cast_ne_zero.mpr h.ne'
    have hm : (n : ℚ) * meanQ n v = ∑ d ∈ Finset.range n, v d := by
      rw [meanQ]; field_simp
    rw [Finset.sum_sub_distrib, Finset.sum_const, Finset.card_range, nsmul_eq_mul, hm, sub_self]

/-- The normalized part of a LayerNorm row sums to zero. -/
theorem sum_lnNormalized (sqrtQ : ℚ → ℚ) (eps : ℚ) (n : ℕ) (v : Vec) :
    ∑ d ∈ Finset.range n, lnNormalized sqrtQ eps n v d = 0 := by
  unfold lnNormalized
  rw [← Finset.sum_div, sum_sub_meanQ, zero_div]

/-- Unbiased variance of the normalized part of a LayerNorm row. -/
theorem varQ_lnNormalized (sqrtQ : ℚ → ℚ) (eps : ℚ) (n : ℕ) (v : Vec) :
    varQ n (lnNormalized sqrtQ eps n v) =
      varQ n v / (sqrtQ (varQ n v) + eps) ^ 2 := by
  have hm : meanQ n (lnNormalized sqrtQ eps n v) = 0 := by
    rw [meanQ, sum_lnNormalized, zero_div]
  rw [varQ, hm]
  simp only [sub_zero, lnNormalized, div_pow]
  rw [← Finset.sum_div, div_right_comm]
  rfl

/-- C7: the normalized part of LayerNorm.forward, (x - mean) / (std + eps)
computed before the learned scale gamma and shift beta, has zero sum and
zero mean along the last axis, and its unbiased variance along the last
axis equals var(x) / (std(x) + eps)^2 — unit up to the eps perturbation:
exactly 1 whenever eps = 0, sqrt is exact on var(x) and var(x) is nonzero.
Mean and std are taken over the last axis (width n) only. -/
theorem layernorm_normalized_stats (sqrtQ : ℚ → ℚ) (eps : ℚ) (n : ℕ) (v : Vec) :
    (∑ d ∈ Finset.range n, lnNormalized sqrtQ eps n v d = 0) ∧
    meanQ n (lnNormalized sqrtQ eps n v) = 0 ∧
    varQ n (lnNormalized sqrtQ eps n v) = varQ n v / (sqrtQ (varQ n v) + eps) ^ 2 ∧
    (sqrtQ (varQ n v) ^ 2 = varQ n v → eps = 0 → varQ n v ≠ 0 →
      varQ n (lnNormalized sqrtQ eps n v) = 1) := by
  refine ⟨sum_lnNormalized sqrtQ eps n v, ?_, varQ_lnNormalized sqrtQ eps n v, ?_⟩
  · rw [meanQ, sum_lnNormalized, zero_div]
  · intro hs he hne
    rw [varQ_lnNormalized, he, add_zero, hs, div_self hne]

/-- C7 witness: on the row (0, 1, 2) of width 3 the variance is 1, sqrt is
exact there, and with eps = 0 the normalized part has variance exactly 1. -/
theorem layernorm_normalized_stats_witness :
    varQ 3 (lnNormalized (fun q => q) 0 3 (fun d => (d : ℚ))) = 1 :=
  (layernorm_normalized_stats (fun q => q) 0 3 (fun d => (d : ℚ))).2.2.2
    (by norm_num [varQ, meanQ, Finset.sum_range_succ]) rfl
    (by norm_num [varQ, meanQ, Finset.sum_range_succ])

/-- C6: ResidualBlock.forward on arguments (x0, ..., xn) equals
x0 + dropout(LayerNorm(L(x0, ..., xn))) with the whole argument tuple
forwarded to the wrapped layer L, so its difference from x0 is exactly
dropout(LayerNorm(L(x0, ..., xn))); both identities are indexwise over
x0's own indices, so the output has x0's shape. -/
theorem residual_block_identity (sqrtQ : ℚ → ℚ) (n : ℕ) (rb : ResidualBlock)
    (x0 : Tensor2) (rest : List Tensor2) (r d : ℕ) :
    ResidualBlock.forward sqrtQ n rb x0 rest r d =
      x0 r d + rb.dmask r d * LayerNorm.forward sqrtQ rb.norm n (rb.layer (x0 :: rest)) r d ∧
    ResidualBlock.forward sqrtQ n rb x0 rest r d - x0 r d =
      rb.dmask r d * LayerNorm.forward sqrtQ rb.norm n (rb.layer (x0 :: rest)) r d := by
  constructor
  · rfl
  · show x0 r d + _ - x0 r d = _
    ring

/-- C8: positional_encodings_like holds, at position p, sin(p / 10000^(2i/D))
in channel 2i and cos(p / 10000^(2i/D)) in channel 2i+1, is broadcast
unchanged over the leading batch dimension, and at position 0 every channel
pair is (sin 0, cos 0) = (0, 1). -/
theorem positional_encodings_spec (sinQ cosQ pw : ℚ → ℚ) (D p i b b' : ℕ) :
    positional_encodings_like sinQ cosQ pw D b p (2 * i) =
      sinQ ((p : ℚ) / pw (((2 * i : ℕ) : ℚ) / (D : ℚ))) ∧
    positional_encodings_like sinQ cosQ pw D b p (2 * i + 1) =
      cosQ ((p : ℚ) / pw (((2 * i : ℕ) : ℚ) / (D : ℚ))) ∧
    (∀ d, positional_encodings_like sinQ cosQ pw D b p d =
      positional_encodings_like sinQ cosQ pw D b' p d) ∧
    (sinQ 0 = 0 → positional_encodings_like sinQ cosQ pw D b 0 (2 * i) = 0) ∧
    (cosQ 0 = 1 → positional_encodings_like sinQ cosQ pw D b 0 (2 * i + 1) = 1) := by
  have hdiv : (2 * i) / 2 = i := by omega
  have hmod : (2 * i) % 2 = 0 := by omega
  have hdiv1 : (2 * i + 1) / 2 = i := by omega
  have hmod1 : (2 * i + 1) % 2 = 1 := by omega
  have hsin : positional_encodings_like sinQ cosQ pw D b p (2 * i) =
      sinQ ((p : ℚ) / pw (((2 * i : ℕ) : ℚ) / (D : ℚ))) := by
    unfold positional_encodings_like peFlat peStack peRaw peChannels
    rw [hdiv, hmod, if_pos rfl, mul_one_div]
  have hcos : positional_encodings_like sinQ cosQ pw D b p (2 * i + 1) =
      cosQ ((p : ℚ) / pw (((2 * i : ℕ) : ℚ) / (D : ℚ))) := by
    unfold positional_encodings_like peFlat peStack peRaw peChannels
    rw [hdiv1, hmod1, if_neg one_ne_zero, mul_one_div]
  refine ⟨hsin, hcos, fun d => rfl, ?_, ?_⟩
  · intro h0
    unfold positional_encodings_like peFlat peStack peRaw
    rw [hdiv, hmod, if_pos rfl, Nat.cast_zero, zero_mul, h0]
  · intro h1
    unfold positional_encodings_like peFlat peStack peRaw
    rw [hdiv1, hmod1, if_neg one_ne_zero, Nat.cast_zero, zero_mul, h1]

/-- C8 witness: with abstract sin and cos instantiated to concrete maps
that satisfy sin 0 = 0 and cos 0 = 1, both members of channel pair (2, 3)
at position 0 evaluate as the claim states. -/
theorem positional_encodings_spec_witness :
    positional_encodings_like (fun q => q) (fun q => q + 1) (fun _ => 1) 4 0 0 (2 * 1) = 0 ∧
    positional_encodings_like (fun q => q) (fun q => q + 1) (fun _ => 1) 4 0 0 (2 * 1 + 1) = 1 :=
  ⟨(positional_encodings_spec (fun q => q) (fun q => q + 1) (fun _ => 1) 4 0 1 0 0).2.2.2.1 rfl,
   (positional_encodings_spec (fun q => q) (fun q => q + 1) (fun _ => 1) 4 0 1 0 0).2.2.2.2
     (by norm_num)⟩

/-- C10: in every MultiHead built by EncoderLayer.__init__ or
DecoderLayer.__init__, the shared per-head attention instance carries the
scale sqrt(d_model) fixed at Attention construction from the full
pre-split feature width; it does not depend on n_heads (the statement
holds for every head count n1 and coincides across n1 and n2), and the
softmax weights computed by that instance divide the dot products by this
full-width scale, not by sqrt of the per-head width. -/
theorem attention_scale_full_width (sqrtQ : ℚ → ℚ) (args : Args) (n1 n2 : ℕ)
    (pa ps pc : MHParams) (pf pf' : FFParams) :
    (EncoderLayer.init sqrtQ { args with n_heads := n1 } pa pf).selfattn.layer.attention.scale
      = sqrtQ (args.d_model : ℚ) ∧
    (EncoderLayer.init sqrtQ { args with n_heads := n1 } pa pf).selfattn.layer.attention.scale
      = (EncoderLayer.init sqrtQ { args with n_heads := n2 } pa pf).selfattn.layer.attention.scale ∧
    (DecoderLayer.init sqrtQ { args with n_heads := n1 } ps pc pf').selfattn.layer.attention.scale
      = sqrtQ (args.d_model : ℚ) ∧
    (DecoderLayer.init sqrtQ { args with n_heads := n1 } ps pc pf').attention.layer.attention.scale
      = sqrtQ (args.d_model : ℚ) ∧
    (∀ expQ Tk Dk q k b i j,
      attnWeight expQ
        (EncoderLayer.init sqrtQ { args with n_heads := n1 } pa pf).selfattn.layer.attention
        Tk Dk q k b i j =
      if attnKeep false i j
      then expQ (attnDot Dk q k b i j / sqrtQ (args.d_model : ℚ)) /
        attnZ expQ
          (EncoderLayer.init sqrtQ { args with n_heads := n1 } pa pf).selfattn.layer.attention
          Tk Dk q k b i
      else 0) :=
  ⟨rfl, rfl, rfl, rfl, fun _ _ _ _ _ _ _ _ => rfl⟩

/-- Length of the encoding list built by the encoder loop. -/
theorem encLoop_length (layers : List (Tensor3 → Tensor3)) (x : Tensor3) :
    (encLoop layers x).length = layers.length := by
  induction layers generalizing x with
  | nil => rfl
  | cons l ls ih => simp [encLoop, ih]

/-- Element i of the encoding list is the composite of the first i+1
layers. -/
theorem encLoop_get (layers : List (Tensor3 → Tensor3)) (x : Tensor3) (i : ℕ)
    (h : i < (encLoop layers x).length) :
    (encLoop layers x).get ⟨i, h⟩ = stackApply layers x (i + 1) := by
  induction layers generalizing x i with
  | nil => simp [encLoop] at h
  | cons l ls ih =>
    cases i with
    | zero => simp [encLoop, stackApply]
    | succ i' =>
      have h' : i' < (encLoop ls (l x)).length := by
        simpa [encLoop] using h
      have := ih (l x) i' h'
      simpa [encLoop, stackApply] using this

/-- The decoder loop is the fold of the zipped (layer, encoding) pairs. -/
theorem decLoop_eq_foldl_zip (layers : List (Tensor3 → Tensor3 → Tensor3))
    (encs : List Tensor3) (x : Tensor3) :
    decLoop layers encs x = (layers.zip encs).foldl (fun a p => p.1 a p.2) x := by
  induction layers generalizing encs x with
  | nil => cases encs <;> rfl
  | cons l ls ih =>
    cases encs with
    | nil => rfl
    | cons e es => simpa [decLoop] using ih es (l x e)

/-- C2: Encoder.forward returns the ordered list of all n_layers per-layer
outputs — element i is the output of layer i applied after layers 0..i-1
— not just the final output; Decoder.forward folds over zip(layers,
encoding), whose element i pairs decoder layer i with encoding element i,
and returns only the final hidden state. -/
theorem encoder_decoder_stacking (pre preD : Tensor3 → Tensor3)
    (layers : List (Tensor3 → Tensor3)) (x : Tensor3)
    (dlayers : List (Tensor3 → Tensor3 → Tensor3)) (encs : List Tensor3) (y : Tensor3) :
    (Encoder.forward pre layers x).length = layers.length ∧
    (∀ i (h : i < (Encoder.forward pre layers x).length),
      (Encoder.forward pre layers x).get ⟨i, h⟩ = stackApply layers (pre x) (i + 1)) ∧
    Decoder.forward preD dlayers encs y =
      .ok ((dlayers.zip encs).foldl (fun a p => p.1 a p.2) (preD y)) ∧
    (∀ i (h1 : i < dlayers.length) (h2 : i < encs.length),
      (dlayers.zip encs).get ⟨i, by simp [List.length_zip]; omega⟩ =
        (dlayers.get ⟨i, h1⟩, encs.get ⟨i, h2⟩)) := by
  refine ⟨encLoop_length layers (pre x), fun i h => encLoop_get layers (pre x) i h, ?_, ?_⟩
  · show Except.ok (decLoop dlayers encs (preD y)) = _
    rw [decLoop_eq_foldl_zip]
  · intro i h1 h2
    simp [List.get_eq_getElem, List.getElem_zip]

/-- C2 witness: one encoder layer doubling its input and one decoder layer
adding its encoding: the encoding list has length 1, its element 0 is the
first layer applied to the preprocessed input, and the decoder folds the
zipped pairs. -/
theorem encoder_decoder_stacking_witness :
    (Encoder.forward (fun t => t) [fun t => fun b p d => 2 * t b p d]
        (fun _ _ _ => (3 : ℚ))).length = 1 ∧
    (Encoder.forward (fun t => t) [fun t => fun b p d => 2 * t b p d]
        (fun _ _ _ => (3 : ℚ))).get ⟨0, by simp [Encoder.forward, encLoop]⟩ =
      stackApply [fun t => fun b p d => 2 * t b p d] (fun _ _ _ => (3 : ℚ)) 1 := by
  have h := encoder_decoder_stacking (fun t => t) (fun t => t)
    [fun t => fun b p d => 2 * t b p d] (fun _ _ _ => (3 : ℚ)) [] [] (fun _ _ _ => 0)
  exact ⟨h.1, h.2.1 0 (by simp [Encoder.forward, encLoop])⟩

/-- Zip truncation in the decoder loop: the loop only ever consumes the
common prefix of the two lists. -/
theorem decLoop_truncates (layers : List (Tensor3 → Tensor3 → Tensor3))
    (encs : List Tensor3) (x : Tensor3) :
    decLoop layers encs x =
      decLoop (layers.take encs.length) (encs.take layers.length) x := by
  induction layers generalizing encs x with
  | nil => cases encs <;> rfl
  | cons l ls ih =>
    cases encs with
    | nil => rfl
    | cons e es => simpa [decLoop] using ih es (l x e)

/-- C5 counterexample: a decoder holding two layers called with an encoding
list of length one — the layer counts differ, yet Decoder.forward surfaces
no error: it returns ok, having silently applied only the first layer (the
second layer, which would rewrite everything to 99, never runs). -/
theorem decoder_mismatch_silent :
    ([fun a _ => a, fun _ _ => fun _ _ _ => (99 : ℚ)] :
        List (Tensor3 → Tensor3 → Tensor3)).length ≠
      ([fun _ _ _ => (7 : ℚ)] : List Tensor3).length ∧
    Decoder.forward (fun t => t)
        [fun a _ => a, fun _ _ => fun _ _ _ => (99 : ℚ)]
        [fun _ _ _ => (7 : ℚ)] (fun _ _ _ => (0 : ℚ)) =
      .ok (fun _ _ _ => (0 : ℚ)) :=
  ⟨by decide, rfl⟩

/-- C5 amended: Decoder.forward raises no error on an encoder/decoder
layer-count mismatch; it always returns ok, and zip(self.layers, encoding)
silently truncates to the shorter of the two sequences, so only
min(n_layers, len(encoding)) decoder layers are applied. -/
theorem decoder_forward_no_mismatch_error (pre : Tensor3 → Tensor3)
    (dlayers : List (Tensor3 → Tensor3 → Tensor3)) (encs : List Tensor3) (y : Tensor3) :
    Decoder.forward pre dlayers encs y = .ok (decLoop dlayers encs (pre y)) ∧
    (Decoder.forward pre dlayers encs y).isOk = true ∧
    decLoop dlayers encs (pre y) =
      decLoop (dlayers.take encs.length) (encs.take dlayers.length) (pre y) :=
  ⟨rfl, rfl, decLoop_truncates dlayers encs (pre y)⟩

/-- C4 counterexample: n_heads = 2 divides neither d_key = 3 nor
d_value = 3, yet MultiHead construction succeeds instead of signalling an
error. -/
theorem multihead_init_unvalidated :
    ¬ (2 ∣ 3) ∧
    (MultiHead.initE { scale := 0, dmask := fun _ _ _ => 0, causal := false } 3 3 2
        ⟨fun _ _ => 0, fun _ => 0⟩ ⟨fun _ _ => 0, fun _ => 0⟩
        ⟨fun _ _ => 0, fun _ => 0⟩ ⟨fun _ _ => 0, fun _ => 0⟩).isOk = true :=
  ⟨by decide, rfl⟩

/-- Evaluation of the linear shape rule on a rank-3 shape. -/
theorem linearShape_rank3 (inF outF a b c : ℕ) :
    linearShape inF outF [a, b, c] = if c = inF then some [a, b, outF] else none := rfl

/-- Evaluation of the last-axis split rule on a rank-3 shape. -/
theorem splitLastShape_rank3 (n a b c : ℕ) :
    splitLastShape n [a, b, c] = if n ∣ c then some [a, b, c / n, n] else none := rfl

/-- C4 amended: MultiHead construction performs no validation and always
succeeds, whether or not n_heads divides d_key and d_value; when either
divisibility fails, the error surfaces at call time instead, as a shape
error of the head split inside MultiHead.forward. -/
theorem multihead_validation_deferred (attention : Attention) (d_key d_value n_heads : ℕ)
    (pq pk pv po : LinearParams) (B Tq Tk : ℕ)
    (h : ¬ n_heads ∣ d_key ∨ ¬ n_heads ∣ d_value) :
    (MultiHead.initE attention d_key d_value n_heads pq pk pv po).isOk = true ∧
    multiHeadShape d_key d_value n_heads [B, Tq, d_key] [B, Tk, d_key] [B, Tk, d_value] =
      none := by
  refine ⟨rfl, ?_⟩
  unfold multiHeadShape
  rw [linearShape_rank3, if_pos rfl, linearShape_rank3, if_pos rfl,
    linearShape_rank3, if_pos rfl, Option.some_bind, Option.some_bind, Option.some_bind]
  by_cases hk : n_heads ∣ d_key
  · have hv : ¬ n_heads ∣ d_value := h.resolve_left (not_not_intro hk)
    rw [splitLastShape_rank3, if_pos hk, Option.some_bind]
    show Option.bind (some [B * n_heads, Tq, d_key / n_heads]) _ = _
    rw [Option.some_bind, splitLastShape_rank3, if_pos hk, Option.some_bind]
    show Option.bind (some [B * n_heads, Tk, d_key / n_heads]) _ = _
    rw [Option.some_bind, splitLastShape_rank3, if_neg hv, Option.none_bind,
      Option.none_bind]
  · rw [splitLastShape_rank3, if_neg hk, Option.none_bind, Option.none_bind]

/-- C4 witness: with d_key = 3, d_value = 4 and n_heads = 2 construction
succeeds and the rank-3 forward shape computation fails. -/
theorem multihead_validation_deferred_witness :
    (MultiHead.initE { scale := 0, dmask := fun _ _ _ => 0, causal := false } 3 4 2
        ⟨fun _ _ => 0, fun _ => 0⟩ ⟨fun _ _ => 0, fun _ => 0⟩
        ⟨fun _ _ => 0, fun _ => 0⟩ ⟨fun _ _ => 0, fun _ => 0⟩).isOk = true ∧
    multiHeadShape 3 4 2 [1, 1, 3] [1, 1, 3] [1, 1, 4] = none :=
  multihead_validation_deferred { scale := 0, dmask := fun _ _ _ => 0, causal := false } 3 4 2
    ⟨fun _ _ => 0, fun _ => 0⟩ ⟨fun _ _ => 0, fun _ => 0⟩
    ⟨fun _ _ => 0, fun _ => 0⟩ ⟨fun _ _ => 0, fun _ => 0⟩ 1 1 1 (Or.inl (by decide))

/-- C3 counterexample: d_key = 2, d_value = 4, n_heads = 1, query of shape
[1, 1, 2], key [1, 1, 2], value [1, 1, 4] (n_heads divides both widths):
the output shape is [1, 1, 2] — leading dims times d_key, because the
final projection wo maps d_value to d_key — not [1, 1, 4] as the claim
(leading dims times d_value) states. -/
theorem multihead_output_width_counterexample :
    multiHeadShape 2 4 1 [1, 1, 2] [1, 1, 2] [1, 1, 4] = some [1, 1, 2] ∧
    some ([1, 1, 2] : Shape) ≠ some ([1, 1, 4] : Shape) :=
  ⟨by decide, by decide⟩

/-- C3 amended: for every rank-3 query [B, Tq, d_key], key [B, Tk, d_key]
and value [B, Tk, d_value] with n_heads dividing d_key and d_value, the
output shape of MultiHead.forward is [B, Tq, d_key] — the query's leading
dimensions times d_key (the final projection wo : d_value → d_key sets the
output width) — regardless of n_heads. -/
theorem multihead_forward_shape (B Tq Tk d_key d_value n_heads : ℕ)
    (hn : 0 < n_heads) (hk : n_heads ∣ d_key) (hv : n_heads ∣ d_value) :
    multiHeadShape d_key d_value n_heads [B, Tq, d_key] [B, Tk, d_key] [B, Tk, d_value] =
      some [B, Tq, d_key] := by
  unfold multiHeadShape
  rw [linearShape_rank3, if_pos rfl, linearShape_rank3, if_pos rfl,
    linearShape_rank3, if_pos rfl, Option.some_bind, Option.some_bind, Option.some_bind,
    splitLastShape_rank3, if_pos hk, Option.some_bind]
  show Option.bind (some [B * n_heads, Tq, d_key / n_heads]) _ = _
  rw [Option.some_bind, splitLastShape_rank3, if_pos hk, Option.some_bind]
  show Option.bind (some [B * n_heads, Tk, d_key / n_heads]) _ = _
  rw [Option.some_bind, splitLastShape_rank3, if_pos hv, Option.some_bind]
  show Option.bind (some [B * n_heads, Tk, d_value / n_heads]) _ = _
  rw [Option.some_bind]
  show Option.bind (attnShape _ _ _) _ = _
  rw [show attnShape [B * n_heads, Tq, d_key / n_heads] [B * n_heads, Tk, d_key / n_heads]
      [B * n_heads, Tk, d_value / n_heads] = some [B * n_heads, Tq, d_value / n_heads] from
    if_pos ⟨rfl, rfl, rfl, rfl⟩, Option.some_bind]
  show Option.bind (splitZeroShape _ _) _ = _
  rw [show splitZeroShape n_heads [B * n_heads, Tq, d_value / n_heads] =
      some [B * n_heads / n_heads, n_heads, Tq, d_value / n_heads] from
    if_pos (dvd_mul_left n_heads B), Option.some_bind]
  show Option.bind (some [B * n_heads / n_heads, Tq, n_heads * (d_value / n_heads)]) _ = _
  rw [Option.some_bind, Nat.mul_div_cancel B hn, Nat.mul_div_cancel' hv,
    linearShape_rank3, if_pos rfl]

/-- C3 witness: two heads on d_key = 2, d_value = 4, batch 2, query length
3, key length 5: the output shape is [2, 3, 2]. -/
theorem multihead_forward_shape_witness :
    0 < 2 ∧ (2 ∣ 2) ∧ (2 ∣ 4) ∧
    multiHeadShape 2 4 2 [2, 3, 2] [2, 5, 2] [2, 5, 4] = some [2, 3, 2] :=
  ⟨by decide, by decide, by decide,
   multihead_forward_shape 2 3 5 2 4 2 (by decide) (by decide) (by decide)⟩

/-- C1: for an Attention with causal masking enabled, on rank-3 operands
the output at query position i is invariant to changes of key and value at
positions strictly greater than i: two runs with the same query whose keys
and values agree at all positions up to i produce the same output row i. -/
theorem causal_attention_invariance (expQ : ℚ → ℚ) (a : Attention) (Tk Dk : ℕ)
    (q k1 v1 k2 v2 : Tensor3) (b i d : ℕ) (hc : a.causal = true)
    (hk : ∀ j, j ≤ i → ∀ c, k1 b j c = k2 b j c)
    (hv : ∀ j, j ≤ i → ∀ c, v1 b j c = v2 b j c) :
    Attention.forward expQ a Tk Dk q k1 v1 b i d =
      Attention.forward expQ a Tk Dk q k2 v2 b i d := by
  have hkeep : ∀ j, attnKeep a.causal i j = decide (j ≤ i) := by
    intro j
    rw [attnKeep, hc]
    rfl
  have hdot : ∀ j, j ≤ i → attnDot Dk q k1 b i j = attnDot Dk q k2 b i j := by
    intro j hj
    unfold attnDot
    exact Finset.sum_congr rfl fun c _ => by rw [hk j hj c]
  have hZ : attnZ expQ a Tk Dk q k1 b i = attnZ expQ a Tk Dk q k2 b i := by
    unfold attnZ
    refine Finset.sum_congr rfl ?_
    intro j hjmem
    have hj : j ≤ i := by
      have hmem := (Finset.mem_filter.mp hjmem).2
      rw [hkeep j] at hmem
      exact of_decide_eq_true hmem
    rw [hdot j hj]
  unfold Attention.forward
  refine Finset.sum_congr rfl ?_
  intro j _
  by_cases hj : j ≤ i
  · have hw : attnWeight expQ a Tk Dk q k1 b i j = attnWeight expQ a Tk Dk q k2 b i j := by
      unfold attnWeight
      rw [hdot j hj, hZ]
    rw [hw, hv j hj d]
  · have hkf : attnKeep a.causal i j = false := by
      rw [hkeep j, decide_eq_false hj]
    have hw1 : attnWeight expQ a Tk Dk q k1 b i j = 0 := by
      unfold attnWeight
      rw [hkf]
      simp
    have hw2 : attnWeight expQ a Tk Dk q k2 b i j = 0 := by
      unfold attnWeight
      rw [hkf]
      simp
    rw [hw1, hw2]
    ring

/-- C1 witness: two key/value pairs over sequence length 2 that agree at
position 0 and differ at position 1; the causal outputs at query position
0 coincide. -/
theorem causal_attention_invariance_witness :
    ({ scale := 1, dmask := fun _ _ _ => 1, causal := true } : Attention).causal = true ∧
    Attention.forward (fun _ => 1) { scale := 1, dmask := fun _ _ _ => 1, causal := true } 2 1
        (fun _ _ _ => 1) (fun _ j _ => (j : ℚ)) (fun _ j _ => (j : ℚ)) 0 0 0 =
      Attention.forward (fun _ => 1) { scale := 1, dmask := fun _ _ _ => 1, causal := true } 2 1
        (fun _ _ _ => 1) (fun _ j _ => ((2 * j : ℕ) : ℚ)) (fun _ j _ => ((3 * j : ℕ) : ℚ)) 0 0 0 :=
  ⟨rfl,
   causal_attention_invariance (fun _ => 1)
     { scale := 1, dmask := fun _ _ _ => 1, causal := true } 2 1
     (fun _ _ _ => 1) (fun _ j _ => (j : ℚ)) (fun _ j _ => (j : ℚ))
     (fun _ j _ => ((2 * j : ℕ) : ℚ)) (fun _ j _ => ((3 * j : ℕ) : ℚ)) 0 0 0 rfl
     (fun j hj c => by simp [Nat.le_zero.mp hj])
     (fun j hj c => by simp [Nat.le_zero.mp hj])⟩

/-- C9 counterexample: with decoding=False and return_probs=False,
Transformer.forward returns the decoder's final hidden state, not the
logits the claim names: here the hidden state is 5 while applying the
output projection self.decoder.out would give 6. -/
theorem transformer_returns_hidden_state :
    (Transformer.forward
        { encF := fun _ => ([] : List ℚ), decF := fun _ _ => (5 : ℚ),
          greedyF := fun _ => 0, beamF := fun _ _ _ => 0,
          outProj := fun z => z + 1, softmaxF := fun z => z }
        0 0 false 1 0 false).1 = TOut.plain (5 : ℚ) ∧
    TOut.plain (5 : ℚ) ≠ TOut.plain ((5 : ℚ) + 1) :=
  ⟨rfl, by norm_num⟩

/-- C9 amended: Transformer.forward always runs the encoder first; the
teacher-forced decoder pass runs exactly when (return_probs and decoding)
or (not decoding); with decoding=False it returns the decoder's final
hidden state (with the softmax of the projected logits alongside when
return_probs=True); with decoding=True it delegates to greedy when beam=1
and to beam_search with length-penalty exponent alpha when beam exceeds 1,
and it never reads an unassigned variable. -/
theorem transformer_forward_control_flow {α : Type} (env : TfEnv α)
    (ei di : α) (decoding : Bool) (beam : ℕ) (alpha : ℚ) (rp : Bool) :
    (Transformer.forward env ei di decoding beam alpha rp).2.head? = some Step.encoder ∧
    (Step.decoder ∈ (Transformer.forward env ei di decoding beam alpha rp).2 ↔
      ((rp = true ∧ decoding = true) ∨ decoding = false)) ∧
    (Transformer.forward env ei di false beam alpha rp).1 =
      (if rp then
        TOut.withProbs (env.decF di (env.encF ei))
          (env.softmaxF (env.outProj (env.decF di (env.encF ei))))
       else TOut.plain (env.decF di (env.encF ei))) ∧
    (Transformer.forward env ei di true 1 alpha rp).1 =
      (if rp then
        TOut.decodedProbs (env.greedyF (env.encF ei)) (env.decF di (env.encF ei))
          (env.softmaxF (env.outProj (env.decF di (env.encF ei))))
       else TOut.decoded (env.greedyF (env.encF ei))) ∧
    (1 < beam →
      (Transformer.forward env ei di true beam alpha rp).1 =
        (if rp then
          TOut.decodedProbs (env.beamF (env.encF ei) beam alpha) (env.decF di (env.encF ei))
            (env.softmaxF (env.outProj (env.decF di (env.encF ei))))
         else TOut.decoded (env.beamF (env.encF ei) beam alpha))) ∧
    (Transformer.forward env ei di decoding beam alpha rp).1 ≠ TOut.crash := by
  refine ⟨?_, ?_, ?_, ?_, ?_, ?_⟩
  · cases decoding <;> cases rp <;> by_cases hb : beam = 1 <;>
      simp [Transformer.forward, hb]
  · cases decoding <;> cases rp <;> by_cases hb : beam = 1 <;>
      simp [Transformer.forward, hb]
  · cases rp <;> simp [Transformer.forward]
  · cases rp <;> simp [Transformer.forward]
  · intro hbeam
    have hb : ¬ beam = 1 := by omega
    cases rp <;> simp [Transformer.forward, hb]
  · cases decoding <;> cases rp <;> by_cases hb : beam = 1 <;>
      simp [Transformer.forward, hb]

/-- C9 witness: beam = 2 exceeds 1 with decoding=True and
return_probs=False, so the result is the beam-search output. -/
theorem transformer_forward_control_flow_witness :
    1 < 2 ∧
    (Transformer.forward
        { encF := fun _ => ([] : List ℚ), decF := fun _ _ => (5 : ℚ),
          greedyF := fun _ => 7, beamF := fun _ _ _ => 9,
          outProj := fun z => z + 1, softmaxF := fun z => z }
        0 0 true 2 0 false).1 = TOut.decoded (9 : ℚ) :=
  ⟨by decide,
   (transformer_forward_control_flow
     { encF := fun _ => ([] : List ℚ), decF := fun _ _ => (5 : ℚ),
       greedyF := fun _ => 7, beamF := fun _ _ _ => 9,
       outProj := fun z => z + 1, softmaxF := fun z => z }
     0 0 true 2 0 false).2.2.2.2.1 (by decide)⟩
